import Mathlib

/-!
Verification of the data-import and query core of the Illinois Report Card
API repository, as a shallow embedding in Lean.

The Python sources embedded here are:
  * `app/utils/data_cleaners.py` (clean_percentage, clean_enrollment,
    handle_suppressed, normalize_column_name),
  * `app/utils/schema_detector.py` (detect_column_type,
    detect_column_category),
  * `app/services/table_manager.py` (create_year_table),
  * `app/cli/import_data.py` (import_excel_file),
  * `app/api/query.py` (the POST /query SQL builder).

Modelling conventions: Python cell values (as produced by the workbook
parser) are an inductive `Value` covering None, int, float, str and bool;
floats carry exact rationals, since every operation the claims touch
(decimal parsing and truncation) is exact on decimals.  Python `int(...)`
and `float(...)` on strings are modelled by `pyIntOfChars` /
`pyFloatOfChars` over the plain decimal grammar (optional sign, digits,
decimal point, exponent); exotic accepted forms (underscore separators,
"inf", "nan", non-ASCII digits) are outside the model and none of the
claims depend on them.  Stateful code is explicit state passing over a
`DBState`; `sys.exit` and raised exceptions are `Except.error`.
-/

set_option maxRecDepth 4000

namespace ReportCard

/-- Character classes, via code points to keep arithmetic reasoning easy.
`isPySpace` is the ASCII part of Python's `str.strip()` / regex `\s`
whitespace set: space, tab, newline, carriage return, vertical tab,
form feed. -/
def isPySpace (c : Char) : Bool :=
  c.toNat == 32 || (9 ≤ c.toNat && c.toNat ≤ 13)

/-- Decimal digit `0`-`9`. -/
def isDigitCh (c : Char) : Bool :=
  48 ≤ c.toNat && c.toNat ≤ 57

/-- Lowercase ASCII letter. -/
def isLowerCh (c : Char) : Bool :=
  97 ≤ c.toNat && c.toNat ≤ 122

/-- Uppercase ASCII letter. -/
def isUpperCh (c : Char) : Bool :=
  65 ≤ c.toNat && c.toNat ≤ 90

/-- ASCII lowering, the fragment of Python `str.lower` the pipeline needs
(non-ASCII letters are erased later by `normalize_column_name` anyway). -/
def pyLowerCh (c : Char) : Char :=
  if isUpperCh c then Char.ofNat (c.toNat + 32) else c

/-- Drop leading characters satisfying `p` (left half of Python `strip`). -/
def dropLeading (p : Char → Bool) : List Char → List Char :=
  List.dropWhile p

/-- Drop trailing characters satisfying `p` (right half of Python `strip`). -/
def dropTrailing (p : Char → Bool) : List Char → List Char
  | [] => []
  | c :: rest =>
    match dropTrailing p rest with
    | [] => if p c then [] else [c]
    | r => c :: r

/-- Python `str.strip` with the character set given by `p`. -/
def stripChars (p : Char → Bool) (l : List Char) : List Char :=
  dropTrailing p (dropLeading p l)

/-- Numeric value of a digit run (most significant first). -/
def digitsVal (l : List Char) : Nat :=
  l.foldl (fun n c => 10 * n + (c.toNat - 48)) 0

/-- Split a character list at the first occurrence of `c`; `none` when
`c` does not occur. -/
def splitAtCh (c : Char) : List Char → Option (List Char × List Char)
  | [] => Option.none
  | x :: rest =>
    if x == c then some ([], rest)
    else (splitAtCh c rest).map (fun p => (x :: p.1, p.2))

/-- Model of Python `int(s)` on a character list: optional surrounding
whitespace, optional sign, then a nonempty digit run. -/
def pyIntOfChars (l : List Char) : Option Int :=
  let t := stripChars isPySpace l
  let core : List Char → Option Int := fun d =>
    if d.isEmpty then Option.none
    else if d.all isDigitCh then some (Int.ofNat (digitsVal d))
    else Option.none
  match t with
  | '+' :: rest => core rest
  | '-' :: rest => (core rest).map (fun n => -n)
  | rest => core rest

/-- Mantissa of a Python float literal: `d+`, `d+.d*`, `d*.d+`
(at least one digit overall).  The result is an exact decimal,
significand paired with a power-of-ten exponent. -/
def pyMantissa (l : List Char) : Option (Int × Int) :=
  match splitAtCh '.' l with
  | Option.none =>
    if l.isEmpty then Option.none
    else if l.all isDigitCh then some (Int.ofNat (digitsVal l), 0)
    else Option.none
  | some (a, b) =>
    if (a ++ b).isEmpty then Option.none
    else if a.all isDigitCh && b.all isDigitCh then
      some (Int.ofNat (digitsVal (a ++ b)), -(Int.ofNat b.length))
    else Option.none

/-- Exponent part of a Python float literal: optional sign, nonempty
digit run. -/
def pyExponent (l : List Char) : Option Int :=
  match l with
  | '+' :: rest =>
    if rest.isEmpty || !rest.all isDigitCh then Option.none
    else some (Int.ofNat (digitsVal rest))
  | '-' :: rest =>
    if rest.isEmpty || !rest.all isDigitCh then Option.none
    else some (-(Int.ofNat (digitsVal rest)))
  | rest =>
    if rest.isEmpty || !rest.all isDigitCh then Option.none
    else some (Int.ofNat (digitsVal rest))

/-- Model of Python `float(s)` on a character list, over the plain decimal
grammar: optional whitespace and sign, mantissa, optional `e`/`E`
exponent.  The parse yields the exact decimal `(significand, exp10)`,
whose rational value is `decToRat`. -/
def pyFloatParse (l : List Char) : Option (Int × Int) :=
  let body : List Char → Option (Int × Int) := fun m =>
    match splitAtCh 'e' m with
    | some (a, b) => do
      let q ← pyMantissa a
      let e ← pyExponent b
      pure (q.1, q.2 + e)
    | Option.none =>
      match splitAtCh 'E' m with
      | some (a, b) => do
        let q ← pyMantissa a
        let e ← pyExponent b
        pure (q.1, q.2 + e)
      | Option.none => pyMantissa m
  match stripChars isPySpace l with
  | '+' :: rest => body rest
  | '-' :: rest => (body rest).map (fun p => (-p.1, p.2))
  | rest => body rest

/-- Rational value of a parsed decimal. -/
def decToRat (p : Int × Int) : Rat :=
  (p.1 : Rat) * (10 : Rat) ^ p.2

/-- Model of Python `float(s)` as a rational value. -/
def pyFloatOfChars (l : List Char) : Option Rat :=
  (pyFloatParse l).map decToRat

/-- Truncation toward zero, the behaviour of Python `int(...)` on
rationals. -/
def ratTrunc (q : Rat) : Int :=
  q.num.tdiv (q.den : Int)

/-- Truncation toward zero of a parsed decimal, computed on integers;
`decTrunc_eq_ratTrunc` below proves it agrees with `ratTrunc` of the
decimal's rational value. -/
def decTrunc (p : Int × Int) : Int :=
  if 0 ≤ p.2 then p.1 * ((10 : Int) ^ p.2.toNat)
  else p.1.tdiv ((10 : Int) ^ (-p.2).toNat)

/-- Raw cell values as handed to the import pipeline by the workbook
parser: Python None, int, float, str or bool. -/
inductive Value where
  | none : Value
  | int (n : Int) : Value
  | real (q : Rat) : Value
  | str (s : String) : Value
  | bool (b : Bool) : Value
deriving DecidableEq, Repr

/-- Model of `clean_percentage` (data_cleaners.py): numbers pass through as
floats (Python bools are ints, so `True` becomes `1.0`); the empty or
absent value and the bare suppression marker give None; a trailing percent
sign is stripped before parsing; parse failure gives None. -/
def clean_percentage : Value → Value
  | Value.none => Value.none
  | Value.int n => Value.real (n : Rat)
  | Value.real q => Value.real q
  | Value.bool b => Value.real (if b then 1 else 0)
  | Value.str s =>
    if s = "" then Value.none
    else
      let t := stripChars isPySpace s.data
      if t = ['*'] then Value.none
      else
        let t2 := match t.getLast? with
          | some '%' => t.dropLast
          | _ => t
        match pyFloatOfChars t2 with
        | some q => Value.real q
        | Option.none => Value.none

/-- Model of `clean_enrollment` (data_cleaners.py): numbers pass through as
ints via `int(...)` truncation; the empty or absent value gives None; a
string containing the suppression marker anywhere gives None; otherwise
commas are removed and the string goes through `int(float(...))`,
truncating toward zero; parse failure gives None. -/
def clean_enrollment : Value → Option Int
  | Value.none => Option.none
  | Value.int n => some n
  | Value.real q => some (ratTrunc q)
  | Value.bool b => some (if b then 1 else 0)
  | Value.str s =>
    if s = "" then Option.none
    else
      let t := stripChars isPySpace s.data
      if t.contains '*' then Option.none
      else
        let u := t.filter (fun c => c != ',')
        (pyFloatParse u).map decTrunc

/-- Model of `handle_suppressed` (data_cleaners.py): a value whose
stringification contains the suppression marker becomes None, everything
else passes through unchanged.  Stringified numbers and bools never
contain an asterisk, so only the str case can be suppressed. -/
def handle_suppressed : Value → Value
  | Value.none => Value.none
  | Value.str s =>
    if (stripChars isPySpace s.data).contains '*' then Value.none else Value.str s
  | v => v

/-- Replace every percent sign by the characters `pct`
(`name.replace("%", "pct")`). -/
def replacePct (l : List Char) : List Char :=
  (l.map (fun c => if c == '%' then ['p', 'c', 't'] else [c])).flatten

/-- Characters collapsed to a single underscore by
`re.sub(r'[/\-\s]+', '_', name)`: slash, hyphen, whitespace. -/
def isSepCh (c : Char) : Bool :=
  c.toNat == 47 || c.toNat == 45 || isPySpace c

/-- Collapse each maximal run of separator characters into one
underscore, the effect of `re.sub(r'[/\-\s]+', '_', name)`. -/
def collapseSep : List Char → List Char
  | [] => []
  | [c] => if isSepCh c then ['_'] else [c]
  | a :: b :: rest =>
    if isSepCh a then
      if isSepCh b then collapseSep (b :: rest)
      else '_' :: collapseSep (b :: rest)
    else a :: collapseSep (b :: rest)

/-- Characters kept by `re.sub(r'[^a-z0-9_]', '', name)`. -/
def isIdentCh (c : Char) : Bool :=
  isLowerCh c || isDigitCh c || c == '_'

/-- Collapse each maximal run of underscores into one underscore, the
effect of `re.sub(r'_+', '_', name)`. -/
def collapseUS : List Char → List Char
  | [] => []
  | [c] => [c]
  | a :: b :: rest =>
    if a == '_' && b == '_' then collapseUS (b :: rest)
    else a :: collapseUS (b :: rest)

/-- Model of `normalize_column_name` (data_cleaners.py): lowercase, map
percent signs to `pct`, collapse separator runs to underscores, drop
characters outside `[a-z0-9_]`, collapse underscore runs, strip
leading and trailing underscores. -/
def normalize_column_name (s : String) : String :=
  String.mk
    (stripChars (fun c => c == '_')
      (collapseUS
        (List.filter isIdentCh
          (collapseSep
            (replacePct
              (s.data.map pyLowerCh))))))

/-- Test whether `needle` starts `haystack` (character lists). -/
def startsWithSeq : List Char → List Char → Bool
  | [], _ => true
  | _ :: _, [] => false
  | a :: as, b :: bs => a == b && startsWithSeq as bs

/-- Test whether `needle` occurs contiguously inside `haystack`, the model
of Python's `needle in haystack` on strings. -/
def containsSeq (needle : List Char) : List Char → Bool
  | [] => startsWithSeq needle []
  | b :: bs => startsWithSeq needle (b :: bs) || containsSeq needle bs

/-- Python `token in name.lower()` for one token. -/
def tokenInLower (token : String) (name : String) : Bool :=
  containsSeq token.data (name.data.map pyLowerCh)

/-- Percentage indicators of `detect_column_type` (schema_detector.py). -/
def percentage_indicators : List String := ["pct", "percent", "rate"]

/-- Test of the percentage-name branch of `detect_column_type`: some
indicator occurs in the lowercased column name. -/
def pctNamed (column_name : String) : Bool :=
  percentage_indicators.any (fun t => tokenInLower t column_name)

/-- Comma stripping and whitespace stripping applied to a string sample
before the parse attempts in `detect_column_type`
(`v.replace(',', '').strip()`). -/
def detectCleanChars (s : String) : List Char :=
  stripChars isPySpace (s.data.filter (fun c => c != ','))

/-- Loop body of `detect_column_type`: walk the non-null samples carrying
the `all_integers` / `all_floats` flags; a bool, a None, or an unparsable
string breaks out with both flags false. -/
def typeLoop : List Value → Bool → Bool → Bool × Bool
  | [], aI, aF => (aI, aF)
  | v :: rest, aI, aF =>
    match v with
    | Value.bool _ => (false, false)
    | Value.none => (false, false)
    | Value.int _ => typeLoop rest aI aF
    | Value.real _ => typeLoop rest false aF
    | Value.str s =>
      let c := detectCleanChars s
      if (pyIntOfChars c).isSome then typeLoop rest aI aF
      else if (pyFloatOfChars c).isSome then typeLoop rest false aF
      else (false, false)

/-- Model of `detect_column_type` (schema_detector.py): a percentage-ish
token in the lowercased name wins outright; otherwise null samples are
dropped, an empty remainder defaults to string, and the flag loop decides
between integer, float and string. -/
def detect_column_type (column_name : String) (values : List Value) : String :=
  if pctNamed column_name then "percentage"
  else
    let non_null_values := values.filter (fun v => v ≠ Value.none)
    if non_null_values.isEmpty then "string"
    else
      let p := typeLoop non_null_values true true
      if p.1 then "integer"
      else if p.2 then "float"
      else "string"

/-- Keyword lists of `detect_column_category` (schema_detector.py). -/
def demographics_keywords : List String :=
  ["white", "black", "hispanic", "asian", "race", "ethnicity",
   "economically_disadvantaged", "low_income", "poverty",
   "iep", "special_education", "disability",
   "ell", "english_learner", "lep", "limited_english",
   "gender", "male", "female"]

/-- Assessment keywords of `detect_column_category`. -/
def assessment_keywords : List String :=
  ["act", "sat", "iar", "parcc", "psat",
   "proficient", "proficiency", "test", "exam", "assessment",
   "score", "ela", "math", "reading", "writing", "science"]

/-- Enrollment keywords of `detect_column_category`. -/
def enrollment_keywords : List String :=
  ["enrollment", "student_count", "students"]

/-- Attendance keywords of `detect_column_category`. -/
def attendance_keywords : List String :=
  ["attendance", "truancy", "absent", "present"]

/-- Graduation keywords of `detect_column_category`. -/
def graduation_keywords : List String :=
  ["graduation", "graduate", "dropout", "cohort"]

/-- Model of `detect_column_category` (schema_detector.py): keyword-set
containment against the lowercased name, in the source's fixed order. -/
def detect_column_category (column_name : String) : String :=
  if demographics_keywords.any (fun t => tokenInLower t column_name) then "demographics"
  else if assessment_keywords.any (fun t => tokenInLower t column_name) then "assessment"
  else if enrollment_keywords.any (fun t => tokenInLower t column_name) then "enrollment"
  else if attendance_keywords.any (fun t => tokenInLower t column_name) then "attendance"
  else if graduation_keywords.any (fun t => tokenInLower t column_name) then "graduation"
  else "other"

/-- Join a list of strings with a separator (Python `sep.join`). -/
def joinSep (sep : String) : List String → String
  | [] => ""
  | [s] => s
  | s :: rest => s ++ sep ++ joinSep sep rest

/-- Payload of one filter entry's operator value or of a literal filter:
a JSON scalar or a JSON array. -/
inductive PVal where
  | scalar (v : Value) : PVal
  | arr (vs : List Value) : PVal
deriving DecidableEq, Repr

/-- One entry of the request's `filters` mapping: either a literal
(equality) or an operator object. -/
inductive FilterVal where
  | lit (v : PVal) : FilterVal
  | ops (l : List (String × PVal)) : FilterVal
deriving DecidableEq, Repr

/-- Body of a POST /query request (query.py `QueryRequest`), with the
pydantic defaults already applied. -/
structure QueryRequest where
  year : Int
  entity_type : String
  fields : Option (List String)
  filters : Option (List (String × FilterVal))
  limit : Value
  offset : Value
deriving DecidableEq, Repr

/-- Insert-or-replace on an association list, the model of assignment into
a Python dict (replacement keeps the key's original position, as dicts
keep first-insertion order). -/
def updateA {α : Type} (m : List (String × α)) (k : String) (v : α) : List (String × α) :=
  match m with
  | [] => [(k, v)]
  | (k', v') :: rest => if k' == k then (k, v) :: rest else (k', v') :: updateA rest k v

/-- Lookup on an association list (Python dict access). -/
def lookupA {α : Type} (m : List (String × α)) (k : String) : Option α :=
  match m with
  | [] => Option.none
  | (k', v') :: rest => if k' == k then some v' else lookupA rest k

/-- One year-partitioned physical table: column (name, SQL type) pairs in
DDL order, and the stored rows, each row being the inserted bind-parameter
dictionary. -/
structure PTable where
  cols : List (String × String)
  rows : List (List (String × Value))
deriving DecidableEq, Repr

/-- One row of the `schema_metadata` catalog table (models the
`SchemaMetadata` ORM class of models/database.py; `is_suppressed_indicator`
has server default `False`). -/
structure MetaRow where
  year : Int
  table_name : String
  column_name : String
  data_type : String
  category : String
  source_column_name : String
  is_suppressed_indicator : Bool
deriving DecidableEq, Repr

/-- One row of the `entities_master` table (models the `EntitiesMaster`
ORM class of models/database.py). -/
structure EntityRec where
  rcdts : Value
  name : Value
  city : Value
  county : Value
  entity_type : String
deriving DecidableEq, Repr

/-- The durable database state the core manipulates: the dynamic
year-partitioned tables keyed by name, the schema catalog, and the master
entity table. -/
structure DBState where
  tables : List (String × PTable)
  schema_metadata : List MetaRow
  entities : List EntityRec
deriving DecidableEq, Repr

/-- Entity-kind to table-prefix map of the query endpoint
(query.py `entity_table_map`, with the `+ "s"` default). -/
def tableBase (entity_type : String) : String :=
  if entity_type == "school" then "schools"
  else if entity_type == "district" then "districts"
  else if entity_type == "state" then "state"
  else entity_type ++ "s"

/-- Inner operator loop of the filter builder (query.py lines 67-97): one
condition per recognized operator; `in` with a non-list payload is skipped;
unrecognized operator keys burn a parameter number and add nothing. -/
def buildOps (field : String) : List (String × PVal) → Nat → List (String × PVal) →
    List String × List (String × PVal) × Nat
  | [], k, ps => ([], ps, k)
  | (op, arg) :: rest, k, ps =>
    if op == "in" then
      match arg with
      | PVal.arr items =>
        let names := (List.range items.length).map (fun j => "filter_" ++ toString (k + j))
        let ps' := (names.zip items).foldl (fun m p => updateA m p.1 (PVal.scalar p.2)) ps
        let cond := field ++ " IN (" ++ joinSep ", " (names.map (fun n => ":" ++ n)) ++ ")"
        let r := buildOps field rest (k + items.length) ps'
        (cond :: r.1, r.2.1, r.2.2)
      | PVal.scalar _ => buildOps field rest k ps
    else
      let name := "filter_" ++ toString k
      if op == "gte" then
        let r := buildOps field rest (k + 1) (updateA ps name arg)
        ((field ++ " >= :" ++ name) :: r.1, r.2.1, r.2.2)
      else if op == "lte" then
        let r := buildOps field rest (k + 1) (updateA ps name arg)
        ((field ++ " <= :" ++ name) :: r.1, r.2.1, r.2.2)
      else if op == "gt" then
        let r := buildOps field rest (k + 1) (updateA ps name arg)
        ((field ++ " > :" ++ name) :: r.1, r.2.1, r.2.2)
      else if op == "lt" then
        let r := buildOps field rest (k + 1) (updateA ps name arg)
        ((field ++ " < :" ++ name) :: r.1, r.2.1, r.2.2)
      else
        buildOps field rest (k + 1) ps

/-- Outer filter loop of the builder (query.py lines 63-101): a dict value
goes through the operator loop, anything else becomes an equality
condition whose parameter is named after the field itself. -/
def buildFilters : List (String × FilterVal) → Nat → List (String × PVal) →
    List String × List (String × PVal) × Nat
  | [], k, ps => ([], ps, k)
  | (field, FilterVal.lit v) :: rest, k, ps =>
    let r := buildFilters rest k (updateA ps field v)
    ((field ++ " = :" ++ field) :: r.1, r.2.1, r.2.2)
  | (field, FilterVal.ops l) :: rest, k, ps =>
    let r1 := buildOps field l k ps
    let r2 := buildFilters rest r1.2.2 r1.2.1
    (r1.1 ++ r2.1, r2.2.1, r2.2.2)

/-- Field-selection clause (query.py lines 52-55): a missing or empty
`fields` list is falsy in Python and selects `*`. -/
def selectClause (fields : Option (List String)) : String :=
  match fields with
  | some fs => if fs.isEmpty then "*" else joinSep ", " fs
  | Option.none => "*"

/-- The two SQL statements of the endpoint together with the bound
parameters.  Whitespace of the data query is canonicalized to single
spaces (the source builds it from a multi-line f-string). -/
structure BuiltQuery where
  count_sql : String
  data_sql : String
  params : List (String × PVal)
deriving DecidableEq, Repr

/-- SQL-text construction of the query endpoint (query.py lines 51-116).
Note that it is a function of the request alone: the reflected table
object is only checked for existence, never consulted for its columns. -/
def buildQuerySQL (req : QueryRequest) : BuiltQuery :=
  let table_name := tableBase req.entity_type ++ "_" ++ toString req.year
  let ps0 : List (String × PVal) :=
    [("limit", PVal.scalar req.limit), ("offset", PVal.scalar req.offset)]
  let fr := match req.filters with
    | some fl => buildFilters fl 0 ps0
    | Option.none => ([], ps0, 0)
  let where_clause := if fr.1.isEmpty then "" else "WHERE " ++ joinSep " AND " fr.1
  { count_sql := "SELECT COUNT(*) as total FROM " ++ table_name ++ " " ++ where_clause
    data_sql := "SELECT " ++ selectClause req.fields ++ " FROM " ++ table_name ++ " "
      ++ where_clause ++ " LIMIT :limit OFFSET :offset"
    params := fr.2.1 }

/-- Model of the POST /query endpoint `query` (query.py): reject only when
the year-partitioned table does not exist, otherwise build and return the
parameterized count and data statements. -/
def query (db : DBState) (req : QueryRequest) : Except String BuiltQuery :=
  let table_name := tableBase req.entity_type ++ "_" ++ toString req.year
  match lookupA db.tables table_name with
  | Option.none =>
    Except.error ("No data available for " ++ req.entity_type ++ " in year " ++ toString req.year)
  | some _ => Except.ok (buildQuerySQL req)

/-- Parsed contents of one workbook sheet, as returned by the workbook
parser (excel_parser.py): the header labels and one value dictionary per
data row. -/
structure Sheet where
  headers : List String
  rows : List (List (String × Value))
deriving DecidableEq, Repr

/-- Python `row.get(header)`: the stored value, or None when absent. -/
def rowGet (row : List (String × Value)) (h : String) : Value :=
  match lookupA row h with
  | some v => v
  | Option.none => Value.none

/-- Python `row_data.get(key, "")`: the stored value, or the empty string
when the key is absent. -/
def rowGetD (row : List (String × Value)) (h : String) : Value :=
  match lookupA row h with
  | some v => v
  | Option.none => Value.str ""

/-- Sample extraction of the import pipeline (import_data.py line 79):
every non-None value of the column across the sheet. -/
def sampleValues (rows : List (List (String × Value))) (h : String) : List Value :=
  rows.filterMap (fun r =>
    if rowGet r h = Value.none then Option.none else some (rowGet r h))

/-- Per-column schema information gathered during import: normalized name,
detected type, detected category, original header. -/
structure ColInfo where
  norm : String
  dtype : String
  cat : String
  src : String
deriving DecidableEq, Repr

/-- Schema-detection pass of the import pipeline (import_data.py lines
75-94).  Faithful detail: the type detector receives the raw header, not
the normalized one, while the category detector receives the normalized
header. -/
def schemaInfos (headers : List String) (rows : List (List (String × Value))) : List ColInfo :=
  headers.map (fun h =>
    { norm := normalize_column_name h
      dtype := detect_column_type h (sampleValues rows h)
      cat := detect_column_category (normalize_column_name h)
      src := h })

/-- SQLAlchemy type chosen by `TYPE_MAPPING` (table_manager.py), with
`Text` as the default for unknown type names. -/
def sqlTypeOf (dt : String) : String :=
  if dt == "integer" then "INTEGER"
  else if dt == "float" then "FLOAT"
  else if dt == "percentage" then "FLOAT"
  else if dt == "string" then "TEXT"
  else "TEXT"

/-- Model of `create_year_table` (table_manager.py): build the column list
(synthetic id, one nullable column per descriptor, timestamp) and run
`metadata.create_all`.  With its default check, `create_all` is a no-op
when the table already exists, so an existing partition is left exactly as
it is — nothing is dropped. -/
def create_year_table (year : Int) (entity_type : String)
    (schema : List (String × String)) (db : DBState) : DBState :=
  let table_name := entity_type ++ "_" ++ toString year
  match lookupA db.tables table_name with
  | some _ => db
  | Option.none =>
    { db with
        tables := db.tables ++ [(table_name,
          { cols := ("id", "INTEGER") :: (schema.map (fun p => (p.1, sqlTypeOf p.2))
              ++ [("imported_at", "DATETIME")])
            rows := [] })] }

/-- Per-type cleaning step of the row loop (import_data.py lines 114-124):
percentage columns use `clean_percentage`; integer columns use
`clean_enrollment` falling back to `handle_suppressed`; float columns
percentage-clean only string values containing a percent sign, with the
same fallback; everything else uses `handle_suppressed`. -/
def cleanByType (dt : String) (v : Value) : Value :=
  if dt == "percentage" then clean_percentage v
  else if dt == "integer" then
    match clean_enrollment v with
    | some n => Value.int n
    | Option.none => handle_suppressed v
  else if dt == "float" then
    let c := match v with
      | Value.str s => if s.data.contains '%' then clean_percentage v else v
      | w => w
    if c = Value.none then handle_suppressed v else c
  else handle_suppressed v

/-- One row's cleaned bind-parameter dictionary (import_data.py lines
107-124), keyed by normalized header; duplicate normalized headers
overwrite dict-style. -/
def cleanRowData (headers : List String) (dict : List (String × ColInfo))
    (row : List (String × Value)) : List (String × Value) :=
  headers.foldl (fun rd h =>
    let nh := normalize_column_name h
    let dt := match lookupA dict nh with
      | some i => i.dtype
      | Option.none => "string"
    updateA rd nh (cleanByType dt (rowGet row h))) []

/-- Python truthiness on cell values, as used by
`if "rcdts" in row_data and row_data["rcdts"]`. -/
def pyTruthy : Value → Bool
  | Value.none => false
  | Value.int n => decide (n ≠ 0)
  | Value.real q => decide (q ≠ 0)
  | Value.str s => decide (s ≠ "")
  | Value.bool b => b

/-- Master-entity upsert of the row loop (import_data.py lines 133-144):
when the row carries a truthy rcdts and no entity with that rcdts exists
yet, insert one; an existing entity is never modified. -/
def upsertEntity (ents : List EntityRec) (rd : List (String × Value)) : List EntityRec :=
  match lookupA rd "rcdts" with
  | Option.none => ents
  | some rc =>
    if pyTruthy rc then
      if ents.any (fun e => decide (e.rcdts = rc)) then ents
      else ents ++ [{ rcdts := rc, name := rowGetD rd "school_name", city := rowGetD rd "city",
                      county := rowGetD rd "county", entity_type := "school" }]
    else ents

/-- The insert loop of the import (import_data.py lines 106-144), run
inside one session: clean each row, fail when an injected fault hits
(`failAt`) or when the row mentions a column the physical table does not
have, thread the entity upserts, and accumulate the rows to insert.  An
error aborts the whole loop, modelling the raised exception that triggers
`session.rollback()`. -/
def processRows (headers : List String) (dict : List (String × ColInfo))
    (tcols : List String) (failAt : Option Nat) :
    List (List (String × Value)) → Nat → List (List (String × Value)) → List EntityRec →
    Except String (List (List (String × Value)) × List EntityRec)
  | [], _, acc, ents => Except.ok (acc, ents)
  | row :: rest, i, acc, ents =>
    if failAt = some i then Except.error "injected insert failure"
    else
      let rd := cleanRowData headers dict row
      if rd.any (fun p => !(tcols.contains p.1)) then Except.error "no such column"
      else
        processRows headers dict tcols failAt rest (i + 1) (acc ++ [rd]) (upsertEntity ents rd)

/-- Table name the import pipeline derives for a `schools` partition of a
year (import_data.py line 97). -/
def schoolsTableName (year : Int) : String :=
  "schools_" ++ toString year

/-- Column descriptor list handed to `create_year_table`
(import_data.py `schema_list`). -/
def schemaListOf (gen : Sheet) : List (String × String) :=
  (schemaInfos gen.headers gen.rows).map (fun i => (i.norm, i.dtype))

/-- Schema dictionary the import builds (import_data.py `schema_metadata`,
a Python dict keyed by normalized header, so a duplicated normalized
header keeps its first position with the last-written info). -/
def schemaDictOf (gen : Sheet) : List (String × ColInfo) :=
  (schemaInfos gen.headers gen.rows).foldl (fun m i => updateA m i.norm i) []

/-- Schema-catalog rows the import persists for a sheet (import_data.py
lines 146-158); `is_suppressed_indicator` is never assigned and therefore
takes the column default `false`. -/
def metaRowsOf (gen : Sheet) (year : Int) : List MetaRow :=
  (schemaDictOf gen).map (fun p =>
    { year := year, table_name := schoolsTableName year, column_name := p.1,
      data_type := p.2.dtype, category := p.2.cat,
      source_column_name := p.2.src, is_suppressed_indicator := false })

/-- Reflected column names of a partition (empty when absent). -/
def tableCols (db : DBState) (tname : String) : List String :=
  match lookupA db.tables tname with
  | some t => t.cols.map Prod.fst
  | Option.none => []

/-- The committed database state at the end of a successful import: the
partition gains the freshly inserted rows, the catalog rows are appended,
and the entity table becomes the threaded upsert result. -/
def commitImport (db1 : DBState) (tname : String)
    (newRows : List (List (String × Value))) (ents : List EntityRec)
    (metaRows : List MetaRow) : DBState :=
  { tables := db1.tables.map (fun t =>
      if t.1 == tname then (t.1, { t.2 with rows := t.2.rows ++ newRows }) else t)
    schema_metadata := db1.schema_metadata ++ metaRows
    entities := ents }

/-- Model of `import_excel_file` (import_data.py) on the non-dry-run,
detect-schema path, entity kind `schools`.  Structural failures (`sys.exit`
on a missing or empty General sheet), a DDL failure, and a failure inside
the row loop are `Except.error` carrying the message and the durable
database state at that point: structural and DDL errors happen before any
change, and a row-loop error rolls the session back to the state right
after the (auto-committed) DDL.  On success the new rows, catalog entries
and entity upserts are committed together. -/
def excelImport (sheets : List (String × Sheet)) (year : Int)
    (ddlFail : Bool) (failAt : Option Nat) (db : DBState) : Except (String × DBState) DBState :=
  if sheets.isEmpty then Except.error ("No data found in Excel file", db)
  else
    match lookupA sheets "General" with
    | Option.none => Except.error ("No General sheet found in Excel file", db)
    | some gen =>
      if gen.rows.isEmpty then Except.error ("No data rows found in General sheet", db)
      else if ddlFail then Except.error ("DDL failure", db)
      else
        let db1 := create_year_table year "schools" (schemaListOf gen) db
        match processRows gen.headers (schemaDictOf gen)
            (tableCols db1 (schoolsTableName year)) failAt gen.rows 0 [] db1.entities with
        | Except.error msg => Except.error (msg, db1)
        | Except.ok r =>
          Except.ok (commitImport db1 (schoolsTableName year) r.1 r.2 (metaRowsOf gen year))

/-! Helper definitions used only to state properties (not part of the
embedded program). -/

/-- Sample predicate of the integer branch of the type detector: the value
counts toward `all_integers` (a Python int, or a string that parses as an
int after comma stripping). -/
def isIntSample : Value → Bool
  | Value.int _ => true
  | Value.str s => (pyIntOfChars (detectCleanChars s)).isSome
  | _ => false

/-- Sample predicate of the numeric branches: the value does not break the
detector loop (an int, a float, or a string parsing as either). -/
def isNumericSample : Value → Bool
  | Value.int _ => true
  | Value.real _ => true
  | Value.str s =>
    (pyIntOfChars (detectCleanChars s)).isSome || (pyFloatOfChars (detectCleanChars s)).isSome
  | _ => false

/-- Non-null samples of a column, as the detector filters them. -/
def nonNullOf (values : List Value) : List Value :=
  values.filter (fun v => v ≠ Value.none)

/-- Adjacent-underscore freedom, the shape `re.sub(r'_+', '_', ...)`
guarantees. -/
def noDoubleUS : List Char → Bool
  | a :: b :: rest => !(a == '_' && b == '_') && noDoubleUS (b :: rest)
  | _ => true

/-- Cleaned bind-parameter dictionaries the import inserts, one per sheet
row in order. -/
def cleanedRowsOf (gen : Sheet) : List (List (String × Value)) :=
  gen.rows.map (cleanRowData gen.headers (schemaDictOf gen))

/-- Master-entity table contents after the import's row loop has threaded
its upserts over the cleaned rows. -/
def entitiesUpsertOf (gen : Sheet) (ents : List EntityRec) : List EntityRec :=
  gen.rows.foldl (fun es row => upsertEntity es (cleanRowData gen.headers (schemaDictOf gen) row)) ents

/-- Number of master-entity records carrying a given external id. -/
def countRc (es : List EntityRec) (rc : Value) : Nat :=
  (es.filter (fun e => decide (e.rcdts = rc))).length

/-- Values stored in one column of a partition, in row order. -/
def colValues (db : DBState) (table : String) (col : String) : Option (List Value) :=
  (lookupA db.tables table).map (fun t => t.rows.map (fun r => rowGet r col))

/-- Suppression-marker test on a raw sample value (the marker is an
asterisk inside the stringified value). -/
def hasMarker : Value → Bool
  | Value.str s => s.data.contains '*'
  | _ => false

/-- Suppression flag the catalog records for a column. -/
def metaFlag (db : DBState) (col : String) : Option Bool :=
  (db.schema_metadata.find? (fun m => m.column_name == col)).map
    (fun m => m.is_suppressed_indicator)

/-- Data type the catalog records for a column. -/
def metaType (db : DBState) (col : String) : Option String :=
  (db.schema_metadata.find? (fun m => m.column_name == col)).map
    (fun m => m.data_type)

/-! Concrete inputs used by the counterexamples and witnesses. -/

/-- The workbook of the spec's end-to-end example: headers RCDTS, School
Name, Student Enrollment, and three rows whose enrollment cells are
"500", "1,250" and the suppression marker. -/
def genSheet3 : Sheet :=
  { headers := ["RCDTS", "School Name", "Student Enrollment"]
    rows := [
      [("RCDTS", Value.str "A1"), ("School Name", Value.str "Alpha"),
       ("Student Enrollment", Value.str "500")],
      [("RCDTS", Value.str "A2"), ("School Name", Value.str "Beta"),
       ("Student Enrollment", Value.str "1,250")],
      [("RCDTS", Value.str "A3"), ("School Name", Value.str "Gamma"),
       ("Student Enrollment", Value.str "*")]] }

/-- An empty database. -/
def dbEmpty : DBState :=
  { tables := [], schema_metadata := [], entities := [] }

/-- The physical table a first import of `genSheet3` creates: every data
column is typed TEXT (the suppressed enrollment sample defeats integer
inference), and the enrollment values are stored as the raw strings with
the suppressed cell as null. -/
def tblAfter1 : PTable :=
  { cols := [("id", "INTEGER"), ("rcdts", "TEXT"), ("school_name", "TEXT"),
             ("student_enrollment", "TEXT"), ("imported_at", "DATETIME")]
    rows := [
      [("rcdts", Value.str "A1"), ("school_name", Value.str "Alpha"),
       ("student_enrollment", Value.str "500")],
      [("rcdts", Value.str "A2"), ("school_name", Value.str "Beta"),
       ("student_enrollment", Value.str "1,250")],
      [("rcdts", Value.str "A3"), ("school_name", Value.str "Gamma"),
       ("student_enrollment", Value.none)]] }

/-- The schema-catalog rows a first import of `genSheet3` persists. -/
def metaAfter1 : List MetaRow :=
  [{ year := 2025, table_name := "schools_2025", column_name := "rcdts",
     data_type := "string", category := "other", source_column_name := "RCDTS",
     is_suppressed_indicator := false },
   { year := 2025, table_name := "schools_2025", column_name := "school_name",
     data_type := "string", category := "other", source_column_name := "School Name",
     is_suppressed_indicator := false },
   { year := 2025, table_name := "schools_2025", column_name := "student_enrollment",
     data_type := "string", category := "enrollment",
     source_column_name := "Student Enrollment", is_suppressed_indicator := false }]

/-- The master-entity rows a first import of `genSheet3` creates. -/
def entsAfter1 : List EntityRec :=
  [{ rcdts := Value.str "A1", name := Value.str "Alpha", city := Value.str "",
     county := Value.str "", entity_type := "school" },
   { rcdts := Value.str "A2", name := Value.str "Beta", city := Value.str "",
     county := Value.str "", entity_type := "school" },
   { rcdts := Value.str "A3", name := Value.str "Gamma", city := Value.str "",
     county := Value.str "", entity_type := "school" }]

/-- Database state after the first import of `genSheet3` into an empty
database. -/
def dbAfter1 : DBState :=
  { tables := [("schools_2025", tblAfter1)]
    schema_metadata := metaAfter1
    entities := entsAfter1 }

/-- Database state after re-importing `genSheet3` over `dbAfter1`: the
partition holds the old rows followed by the new ones, and the catalog
entries are duplicated. -/
def dbAfter2 : DBState :=
  { tables := [("schools_2025",
      { cols := tblAfter1.cols, rows := tblAfter1.rows ++ tblAfter1.rows })]
    schema_metadata := metaAfter1 ++ metaAfter1
    entities := entsAfter1 }

/-- A one-column workbook whose header only gains a percentage token
through normalization (the percent sign becomes `pct`) and whose only
sample is suppressed. -/
def c5Sheet : Sheet :=
  { headers := ["Low-Income %"], rows := [[("Low-Income %", Value.str "*")]] }

/-- Database state after importing `c5Sheet` into an empty database: the
column is catalogued with type string, not percentage, because the
percentage-name check ran on the raw header. -/
def dbC5 : DBState :=
  { tables := [("schools_2024",
      { cols := [("id", "INTEGER"), ("low_income_pct", "TEXT"), ("imported_at", "DATETIME")]
        rows := [[("low_income_pct", Value.none)]] })]
    schema_metadata := [
      { year := 2024, table_name := "schools_2024", column_name := "low_income_pct",
        data_type := "string", category := "demographics",
        source_column_name := "Low-Income %", is_suppressed_indicator := false }]
    entities := [] }

/-- A database with one reflected partition, used by the query-endpoint
counterexample; its only data column is `city`. -/
def qDB : DBState :=
  { tables := [("schools_2024",
      { cols := [("id", "INTEGER"), ("city", "TEXT"), ("imported_at", "DATETIME")]
        rows := [] })]
    schema_metadata := [], entities := [] }

/-- A query request naming a projection field and a filter column that do
not exist in the partition, with a SQL-metacharacter literal as the
filter value. -/
def badReq : QueryRequest :=
  { year := 2024, entity_type := "school"
    fields := some ["no_such_col"]
    filters := some [("evil_col", FilterVal.lit (PVal.scalar (Value.str "x; DROP TABLE schools_2024; --")))]
    limit := Value.int 100, offset := Value.int 0 }

/-! Theorems. -/

theorem ratTrunc_of_nonneg (q : Rat) (h : 0 ≤ q) : ratTrunc q = ⌊q⌋ := by
  rw [ratTrunc, Rat.floor_def]
  exact Int.tdiv_eq_ediv (Rat.num_nonneg.mpr h) (by positivity)

theorem ratTrunc_neg (q : Rat) : ratTrunc (-q) = -ratTrunc q := by
  simp [ratTrunc, Rat.neg_num, Rat.neg_den, Int.neg_tdiv]

theorem ratTrunc_of_nonpos (q : Rat) (h : q ≤ 0) : ratTrunc q = ⌈q⌉ := by
  have h1 : ratTrunc (-q) = ⌊-q⌋ := ratTrunc_of_nonneg (-q) (by linarith)
  have h2 : ratTrunc (-q) = -ratTrunc q := ratTrunc_neg q
  have h3 : ⌊-q⌋ = -⌈q⌉ := Int.floor_neg
  omega

theorem ratTrunc_intCast (n : Int) : ratTrunc ((n : Int) : Rat) = n := by
  simp [ratTrunc, Rat.num_intCast, Rat.den_intCast, Int.tdiv_one]

theorem ratTrunc_intCast_div_pow_of_nonneg (a : Int) (ha : 0 ≤ a) (k : Nat) :
    ratTrunc ((a : Rat) / ((10 : Rat) ^ k)) = a.tdiv ((10 : Int) ^ k) := by
  have hq : (0 : Rat) ≤ (a : Rat) / ((10 : Rat) ^ k) := by
    apply div_nonneg
    · exact_mod_cast ha
    · positivity
  rw [ratTrunc_of_nonneg _ hq]
  have hcast : ((a : Rat) / ((10 : Rat) ^ k)) = (a : Rat) / ((10 ^ k : Nat) : Rat) := by
    push_cast
    ring
  rw [hcast, Rat.floor_intCast_div_natCast]
  have hd : ((10 ^ k : Nat) : Int) = (10 : Int) ^ k := by push_cast; ring
  rw [hd]
  exact (Int.tdiv_eq_ediv ha (by positivity)).symm

theorem ratTrunc_intCast_div_pow (a : Int) (k : Nat) :
    ratTrunc ((a : Rat) / ((10 : Rat) ^ k)) = a.tdiv ((10 : Int) ^ k) := by
  rcases le_or_lt 0 a with ha | ha
  · exact ratTrunc_intCast_div_pow_of_nonneg a ha k
  · have h1 := ratTrunc_intCast_div_pow_of_nonneg (-a) (by omega) k
    have h2 : ((-a : Int) : Rat) / ((10 : Rat) ^ k) = -((a : Rat) / ((10 : Rat) ^ k)) := by
      push_cast
      ring
    rw [h2, ratTrunc_neg, Int.neg_tdiv] at h1
    omega

theorem decTrunc_eq_ratTrunc (p : Int × Int) : decTrunc p = ratTrunc (decToRat p) := by
  rcases p with ⟨a, e⟩
  by_cases he : 0 ≤ e
  · have hz : (10 : Rat) ^ (e : Int) = (10 : Rat) ^ e.toNat := by
      rw [← Int.toNat_of_nonneg he]
      exact zpow_natCast 10 e.toNat
    have : decToRat (a, e) = (((a * 10 ^ e.toNat : Int)) : Rat) := by
      rw [decToRat, hz]
      push_cast
      ring
    rw [decTrunc, if_pos he, this, ratTrunc_intCast]
  · have hk : (10 : Rat) ^ (e : Int) = ((10 : Rat) ^ (-e).toNat)⁻¹ := by
      rw [← zpow_natCast (10 : Rat) (-e).toNat, ← zpow_neg]
      congr 1
      omega
    have : decToRat (a, e) = (a : Rat) / ((10 : Rat) ^ (-e).toNat) := by
      rw [decToRat, hk]
      ring
    rw [decTrunc, if_neg he, this, ratTrunc_intCast_div_pow]

/-- C10: `clean_enrollment` accepts strings denoting non-integer reals and
truncates them toward zero rather than returning null: "12.7" gives 12 and
"-3.9" gives -3; the decimal truncation it applies agrees with truncation
toward zero of the parsed rational (floor for nonnegative values, ceiling
for nonpositive ones); and on strings it returns null exactly for the
empty string, a string containing the suppression marker, or a string the
numeric parser rejects. -/
theorem clean_count_truncates_reals :
    clean_enrollment (Value.str "12.7") = some 12 ∧
    clean_enrollment (Value.str "-3.9") = some (-3) ∧
    clean_enrollment Value.none = Option.none ∧
    clean_enrollment (Value.str "") = Option.none ∧
    clean_enrollment (Value.str "*") = Option.none ∧
    clean_enrollment (Value.str "abc") = Option.none ∧
    (∀ p : Int × Int, decTrunc p = ratTrunc (decToRat p)) ∧
    (∀ q : Rat, ratTrunc q = if 0 ≤ q then ⌊q⌋ else ⌈q⌉) ∧
    (∀ s : String, clean_enrollment (Value.str s) = Option.none ↔
      (s = "" ∨ (stripChars isPySpace s.data).contains '*' = true ∨
        pyFloatParse ((stripChars isPySpace s.data).filter (fun c => c != ',')) = Option.none)) := by
  refine ⟨by decide, by decide, rfl, by decide, by decide, by decide,
    decTrunc_eq_ratTrunc, ?_, ?_⟩
  · intro q
    by_cases h : 0 ≤ q
    · rw [if_pos h]
      exact ratTrunc_of_nonneg q h
    · rw [if_neg h]
      exact ratTrunc_of_nonpos q (le_of_not_le h)
  · intro s
    by_cases hs : s = ""
    · subst hs
      simp [clean_enrollment]
    · by_cases hm : (stripChars isPySpace s.data).contains '*' = true
      · have hm' : '*' ∈ stripChars isPySpace s.data := by simpa using hm
        simp [clean_enrollment, hs, hm, hm']
      · simp only [clean_enrollment, if_neg hs, Bool.not_eq_true] at hm ⊢
        rw [hm]
        simp [Option.map_eq_none', hs, hm]

theorem typeLoop_eq (l : List Value) :
    ∀ aI aF, typeLoop l aI aF = (aI && l.all isIntSample, aF && l.all isNumericSample) := by
  induction l with
  | nil => simp [typeLoop]
  | cons v rest ih =>
    intro aI aF
    cases v with
    | bool b => simp [typeLoop, isIntSample, isNumericSample]
    | none => simp [typeLoop, isIntSample, isNumericSample]
    | int n => simp [typeLoop, ih, isIntSample, isNumericSample, Bool.and_assoc]
    | real q => simp [typeLoop, ih, isIntSample, isNumericSample, Bool.and_assoc]
    | str s =>
      simp only [typeLoop]
      by_cases h1 : (pyIntOfChars (detectCleanChars s)).isSome
      · simp [h1, ih, isIntSample, isNumericSample, Bool.and_assoc]
      · by_cases h2 : (pyFloatOfChars (detectCleanChars s)).isSome
        · simp [h1, h2, ih, isIntSample, isNumericSample, Bool.and_assoc]
        · simp [h1, h2, isIntSample, isNumericSample]

theorem isIntSample_imp_isNumericSample (v : Value) :
    isIntSample v = true → isNumericSample v = true := by
  cases v <;> simp [isIntSample, isNumericSample]
  intro h
  simp [h]

theorem all_int_imp_all_numeric (l : List Value) :
    l.all isIntSample = true → l.all isNumericSample = true := by
  intro h
  rw [List.all_eq_true] at h ⊢
  exact fun v hv => isIntSample_imp_isNumericSample v (h v hv)

/-- C6: for a column whose name carries no percentage token, the detector
returns integer exactly when there is a non-null sample and every non-null
sample is integer-parseable after comma stripping; it returns float
exactly when all non-null samples are numeric but at least one is not
integer-parseable; and it returns string exactly when there are no
non-null samples or some sample is non-numeric. -/
theorem infer_type_tiebreak (label : String) (values : List Value)
    (h : pctNamed label = false) :
    (detect_column_type label values = "integer" ↔
      nonNullOf values ≠ [] ∧ (nonNullOf values).all isIntSample = true) ∧
    (detect_column_type label values = "float" ↔
      nonNullOf values ≠ [] ∧ (nonNullOf values).all isNumericSample = true ∧
      (nonNullOf values).all isIntSample = false) ∧
    (detect_column_type label values = "string" ↔
      (nonNullOf values = [] ∨ (nonNullOf values).all isNumericSample = false)) := by
  have hloop := typeLoop_eq (nonNullOf values) true true
  have hdet : detect_column_type label values =
      (if (nonNullOf values).isEmpty then "string"
       else if (nonNullOf values).all isIntSample then "integer"
       else if (nonNullOf values).all isNumericSample then "float"
       else "string") := by
    simp only [detect_column_type, h, Bool.false_eq_true, if_false, nonNullOf] at hloop ⊢
    rw [hloop]
    simp
  rw [hdet]
  by_cases he : nonNullOf values = []
  · simp [he]
  · have hne : (nonNullOf values).isEmpty = false := by
      simpa [List.isEmpty_iff] using he
    rw [hne]
    by_cases hA : (nonNullOf values).all isIntSample = true
    · have hB := all_int_imp_all_numeric _ hA
      simp [hA, hB, he]
    · have hA' : (nonNullOf values).all isIntSample = false := by
        simpa using hA
      by_cases hB : (nonNullOf values).all isNumericSample = true
      · simp [hA', hB, he]
      · have hB' : (nonNullOf values).all isNumericSample = false := by
          simpa using hB
        simp [hA', hB', he]

/-- Witness for C6 at a concrete non-percentage column. -/
theorem infer_type_tiebreak_witness :
    pctNamed "city" = false ∧
    (detect_column_type "city" [Value.str "Chicago", Value.none] = "integer" ↔
      nonNullOf [Value.str "Chicago", Value.none] ≠ [] ∧
      (nonNullOf [Value.str "Chicago", Value.none]).all isIntSample = true) ∧
    (detect_column_type "city" [Value.str "Chicago", Value.none] = "float" ↔
      nonNullOf [Value.str "Chicago", Value.none] ≠ [] ∧
      (nonNullOf [Value.str "Chicago", Value.none]).all isNumericSample = true ∧
      (nonNullOf [Value.str "Chicago", Value.none]).all isIntSample = false) ∧
    (detect_column_type "city" [Value.str "Chicago", Value.none] = "string" ↔
      (nonNullOf [Value.str "Chicago", Value.none] = [] ∨
        (nonNullOf [Value.str "Chicago", Value.none]).all isNumericSample = false)) :=
  ⟨by decide, infer_type_tiebreak "city" [Value.str "Chicago", Value.none] (by decide)⟩

/-- C3 (counterexample): importing the spec's example workbook does not
store the integers 500 and 1250.  The suppressed third sample makes the
enrollment column text-typed, so the values are kept as the raw strings
"500" and "1,250" (with the suppressed cell as null), and a text value is
not the claimed integer. -/
theorem example_workbook_counterexample :
    excelImport [("General", genSheet3)] 2025 false Option.none dbEmpty = Except.ok dbAfter1 ∧
    colValues dbAfter1 "schools_2025" "student_enrollment" =
      some [Value.str "500", Value.str "1,250", Value.none] ∧
    Value.str "500" ≠ Value.int 500 ∧
    Value.str "1,250" ≠ Value.int 1250 :=
  ⟨rfl, by decide, by decide, by decide⟩

/-- C3 (amended): importing the example workbook produces a partition with
exactly 3 rows whose enrollment-column values are the strings "500" and
"1,250" and null respectively; the column is catalogued as text because
the suppressed sample defeats integer inference. -/
theorem example_workbook_amended :
    excelImport [("General", genSheet3)] 2025 false Option.none dbEmpty = Except.ok dbAfter1 ∧
    (lookupA dbAfter1.tables "schools_2025").map (fun t => t.rows.length) = some 3 ∧
    colValues dbAfter1 "schools_2025" "student_enrollment" =
      some [Value.str "500", Value.str "1,250", Value.none] ∧
    metaType dbAfter1 "student_enrollment" = some "string" :=
  ⟨rfl, by decide, by decide, by decide⟩

/-- C4 (counterexample): after importing the example workbook, the raw
samples of the enrollment column contain the suppression marker, yet the
persisted catalog entry's `is_suppressed_indicator` is false — the import
never computes the flag, so it stays at the column default. -/
theorem suppression_flag_counterexample :
    excelImport [("General", genSheet3)] 2025 false Option.none dbEmpty = Except.ok dbAfter1 ∧
    (sampleValues genSheet3.rows "Student Enrollment").any hasMarker = true ∧
    metaFlag dbAfter1 "student_enrollment" = some false :=
  ⟨rfl, by decide, by decide⟩

/-- C5: the percentage-name check of the type detector runs on the raw
header, although the detector documents its argument as the normalized
name.  For the header "Low-Income %" — whose normalized label
low_income_pct contains the token pct — with an all-suppressed sample,
the import infers string, not percentage. -/
theorem pct_naming_check_uses_raw_header :
    normalize_column_name "Low-Income %" = "low_income_pct" ∧
    pctNamed "low_income_pct" = true ∧
    pctNamed "Low-Income %" = false ∧
    detect_column_type "Low-Income %" [Value.str "*"] = "string" ∧
    detect_column_type "low_income_pct" [Value.str "*"] = "percentage" ∧
    excelImport [("General", c5Sheet)] 2024 false Option.none dbEmpty = Except.ok dbC5 ∧
    metaType dbC5 "low_income_pct" = some "string" :=
  ⟨by decide, by decide, by decide, by decide, by decide, rfl, by decide⟩

/-- C1 (counterexample): re-importing the same three-row workbook over an
existing schools_2025 partition leaves 6 rows — the old three followed by
the new three — and duplicates the three catalog entries, so the partition
does not contain exactly N rows of new data with zero old rows. -/
theorem reimport_counterexample :
    excelImport [("General", genSheet3)] 2025 false Option.none dbAfter1 = Except.ok dbAfter2 ∧
    genSheet3.rows.length = 3 ∧
    (lookupA dbAfter2.tables "schools_2025").map (fun t => t.rows.length) = some 6 ∧
    (lookupA dbAfter2.tables "schools_2025").map (fun t => t.rows.take 3) = some tblAfter1.rows ∧
    tblAfter1.rows ≠ [] ∧
    dbAfter2.schema_metadata.length = 6 ∧
    metaAfter1.length = 3 :=
  ⟨rfl, by decide, by decide, by decide, by decide, by decide, by decide⟩

/-- C2 (counterexample): a request whose projection field and filter
column are not columns of the partition is not rejected — the endpoint
returns SQL that interpolates both unknown identifiers verbatim — while
the filter's literal value is bound as a parameter rather than
interpolated. -/
theorem query_counterexample :
    query qDB badReq = Except.ok (buildQuerySQL badReq) ∧
    (lookupA qDB.tables "schools_2024").map
      (fun t => (t.cols.map Prod.fst).contains "no_such_col") = some false ∧
    (lookupA qDB.tables "schools_2024").map
      (fun t => (t.cols.map Prod.fst).contains "evil_col") = some false ∧
    containsSeq "no_such_col".data (buildQuerySQL badReq).data_sql.data = true ∧
    containsSeq "evil_col".data (buildQuerySQL badReq).count_sql.data = true ∧
    containsSeq "x; DROP TABLE schools_2024; --".data (buildQuerySQL badReq).data_sql.data = false ∧
    lookupA (buildQuerySQL badReq).params "evil_col" =
      some (PVal.scalar (Value.str "x; DROP TABLE schools_2024; --")) :=
  ⟨rfl, by decide, by decide, by decide, by decide, by decide, by decide⟩

theorem lookupA_append {α : Type} (m1 m2 : List (String × α)) (k : String) :
    lookupA (m1 ++ m2) k = (lookupA m1 k).orElse (fun _ => lookupA m2 k) := by
  induction m1 with
  | nil => simp [lookupA]
  | cons p rest ih =>
    by_cases hk : p.1 == k
    · simp [lookupA, hk]
    · simp [lookupA, hk, ih]

theorem create_year_table_schema_metadata (year : Int) (e : String)
    (s : List (String × String)) (db : DBState) :
    (create_year_table year e s db).schema_metadata = db.schema_metadata := by
  cases hl : lookupA db.tables (e ++ "_" ++ toString year) <;>
    simp [create_year_table, hl]

theorem create_year_table_entities (year : Int) (e : String)
    (s : List (String × String)) (db : DBState) :
    (create_year_table year e s db).entities = db.entities := by
  cases hl : lookupA db.tables (e ++ "_" ++ toString year) <;>
    simp [create_year_table, hl]

theorem create_year_table_lookup_preserve (year : Int) (e : String)
    (s : List (String × String)) (db : DBState) (n : String) (t : PTable)
    (h : lookupA db.tables n = some t) :
    lookupA (create_year_table year e s db).tables n = some t := by
  cases hl : lookupA db.tables (e ++ "_" ++ toString year) with
  | some t0 => simpa [create_year_table, hl] using h
  | none => simp [create_year_table, hl, lookupA_append, h]

theorem create_year_table_lookup_inv (year : Int) (e : String)
    (s : List (String × String)) (db : DBState) (n : String) (t : PTable)
    (h : lookupA (create_year_table year e s db).tables n = some t) :
    lookupA db.tables n = some t ∨ (lookupA db.tables n = Option.none ∧ t.rows = []) := by
  cases hl : lookupA db.tables (e ++ "_" ++ toString year) with
  | some t0 =>
    rw [create_year_table] at h
    simp only [hl] at h
    exact Or.inl h
  | none =>
    rw [create_year_table] at h
    simp only [hl, lookupA_append] at h
    cases hdb : lookupA db.tables n with
    | some t0 =>
      rw [hdb] at h
      exact Or.inl h
    | none =>
      rw [hdb] at h
      simp only [Option.orElse] at h
      right
      refine ⟨rfl, ?_⟩
      simp only [lookupA] at h
      split at h
      · cases h
        rfl
      · simp [lookupA] at h

theorem excelImportErr_inv (sheets : List (String × Sheet)) (year : Int) (ddlFail : Bool)
    (failAt : Option Nat) (db : DBState) (msg : String) (dbe : DBState)
    (h : excelImport sheets year ddlFail failAt db = Except.error (msg, dbe)) :
    dbe = db ∨ ∃ s, dbe = create_year_table year "schools" s db := by
  unfold excelImport at h
  split at h
  · cases h
    exact Or.inl rfl
  · split at h
    · cases h
      exact Or.inl rfl
    · split at h
      · cases h
        exact Or.inl rfl
      · split at h
        · cases h
          exact Or.inl rfl
        · simp only [] at h
          split at h
          · cases h
            exact Or.inr ⟨_, rfl⟩
          · cases h

theorem excelImportOk_inv (sheets : List (String × Sheet)) (year : Int) (ddlFail : Bool)
    (failAt : Option Nat) (db db' : DBState)
    (h : excelImport sheets year ddlFail failAt db = Except.ok db') :
    ∃ gen r,
      lookupA sheets "General" = some gen ∧
      gen.rows.isEmpty = false ∧
      ddlFail = false ∧
      processRows gen.headers (schemaDictOf gen)
        (tableCols (create_year_table year "schools" (schemaListOf gen) db)
          (schoolsTableName year))
        failAt gen.rows 0 []
        (create_year_table year "schools" (schemaListOf gen) db).entities = Except.ok r ∧
      db' = commitImport (create_year_table year "schools" (schemaListOf gen) db)
              (schoolsTableName year) r.1 r.2 (metaRowsOf gen year) := by
  unfold excelImport at h
  split at h
  · cases h
  · split at h
    · cases h
    · rename_i gen hg
      split at h
      · cases h
      · rename_i hr
        split at h
        · cases h
        · rename_i hd
          simp only [] at h
          split at h
          · cases h
          · rename_i r hp
            cases h
            exact ⟨gen, r, hg, by simpa using hr, by simpa using hd, hp, rfl⟩

/-- C9: when an import job fails at any modelled step — missing primary
sheet, zero data rows, DDL failure, or an error inside the row-insert
loop — the error carries the captured message and the durable state keeps
the previous catalog, entities and partitions intact: every pre-existing
table is still there unchanged, and no table anywhere holds rows beyond
the ones it had before the import (a freshly created partition is left
empty by the rollback). -/
theorem failed_import_preserves_state (sheets : List (String × Sheet)) (year : Int)
    (ddlFail : Bool) (failAt : Option Nat) (db : DBState) (msg : String) (dbe : DBState)
    (h : excelImport sheets year ddlFail failAt db = Except.error (msg, dbe)) :
    dbe.schema_metadata = db.schema_metadata ∧
    dbe.entities = db.entities ∧
    (∀ n t, lookupA db.tables n = some t → lookupA dbe.tables n = some t) ∧
    (∀ n t, lookupA dbe.tables n = some t →
      t.rows = (match lookupA db.tables n with
                | some t0 => t0.rows
                | Option.none => ([] : List (List (String × Value))))) := by
  rcases excelImportErr_inv sheets year ddlFail failAt db msg dbe h with hdb | ⟨s, hdb⟩
  · subst hdb
    refine ⟨rfl, rfl, fun n t ht => ht, fun n t ht => ?_⟩
    rw [ht]
  · subst hdb
    refine ⟨create_year_table_schema_metadata year "schools" s db,
      create_year_table_entities year "schools" s db,
      fun n t ht => create_year_table_lookup_preserve year "schools" s db n t ht,
      fun n t ht => ?_⟩
    rcases create_year_table_lookup_inv year "schools" s db n t ht with h1 | ⟨h1, h2⟩
    · rw [h1]
    · rw [h1, h2]

/-- Witness for C9 at a concrete failing run: a fault injected at the
first row of a re-import over a populated database. -/
theorem failed_import_preserves_state_witness :
    dbAfter1.schema_metadata = dbAfter1.schema_metadata ∧
    dbAfter1.entities = dbAfter1.entities ∧
    (∀ n t, lookupA dbAfter1.tables n = some t → lookupA dbAfter1.tables n = some t) ∧
    (∀ n t, lookupA dbAfter1.tables n = some t →
      t.rows = (match lookupA dbAfter1.tables n with
                | some t0 => t0.rows
                | Option.none => ([] : List (List (String × Value))))) :=
  failed_import_preserves_state [("General", genSheet3)] 2025 false (some 0) dbAfter1
    "injected insert failure" dbAfter1 (by rfl)

theorem mem_updateA {α : Type} (m : List (String × α)) (k : String) (v : α)
    (p : String × α) (hp : p ∈ updateA m k v) : p = (k, v) ∨ p ∈ m := by
  induction m with
  | nil => simpa [updateA] using hp
  | cons q rest ih =>
    by_cases hk : q.1 == k
    · rw [updateA, if_pos hk] at hp
      rcases List.mem_cons.mp hp with h | h
      · exact Or.inl h
      · exact Or.inr (List.mem_cons_of_mem q h)
    · rw [updateA, if_neg hk] at hp
      rcases List.mem_cons.mp hp with h | h
      · exact Or.inr (h ▸ List.mem_cons_self q rest)
      · rcases ih h with h2 | h2
        · exact Or.inl h2
        · exact Or.inr (List.mem_cons_of_mem q h2)

theorem foldl_updateA_mem {α : Type} (key : String → String) (g : String → α)
    (hs : List String) :
    ∀ (acc : List (String × α)) (p : String × α),
      p ∈ hs.foldl (fun rd h => updateA rd (key h) (g h)) acc →
      p ∈ acc ∨ p.1 ∈ hs.map key := by
  induction hs with
  | nil =>
    intro acc p hp
    exact Or.inl hp
  | cons hd rest ih =>
    intro acc p hp
    rcases ih (updateA acc (key hd) (g hd)) p hp with h | h
    · rcases mem_updateA acc (key hd) (g hd) p h with h2 | h2
      · right
        rw [h2]
        simp
      · exact Or.inl h2
    · right
      simp [h]

theorem cleanRowData_keys (headers : List String) (dict : List (String × ColInfo))
    (row : List (String × Value)) (p : String × Value)
    (hp : p ∈ cleanRowData headers dict row) :
    p.1 ∈ headers.map normalize_column_name := by
  have h := foldl_updateA_mem normalize_column_name
    (fun h => cleanByType
      (match lookupA dict (normalize_column_name h) with
        | some i => i.dtype
        | Option.none => "string") (rowGet row h)) headers [] p hp
  rcases h with h | h
  · cases h
  · exact h

theorem cleanRowData_any_false (headers : List String) (dict : List (String × ColInfo))
    (row : List (String × Value)) (tcols : List String)
    (hc : ∀ hd ∈ headers, tcols.contains (normalize_column_name hd) = true) :
    (cleanRowData headers dict row).any (fun p => !(tcols.contains p.1)) = false := by
  rw [List.any_eq_false]
  intro p hp
  have hk := cleanRowData_keys headers dict row p hp
  rw [List.mem_map] at hk
  obtain ⟨hd, hmem, hEq⟩ := hk
  rw [← hEq]
  have hmem2 : normalize_column_name hd ∈ tcols := by
    simpa using hc hd hmem
  simp [hmem2]

theorem processRows_ok (headers : List String) (dict : List (String × ColInfo))
    (tcols : List String) (rows : List (List (String × Value)))
    (hok : ∀ row ∈ rows,
      (cleanRowData headers dict row).any (fun p => !(tcols.contains p.1)) = false) :
    ∀ (i : Nat) (acc : List (List (String × Value))) (ents : List EntityRec),
      processRows headers dict tcols Option.none rows i acc ents =
        Except.ok (acc ++ rows.map (cleanRowData headers dict),
          rows.foldl (fun es row => upsertEntity es (cleanRowData headers dict row)) ents) := by
  induction rows with
  | nil =>
    intro i acc ents
    simp [processRows]
  | cons row rest ih =>
    intro i acc ents
    have h1 := hok row (List.mem_cons_self row rest)
    have h2 : ∀ r ∈ rest,
        (cleanRowData headers dict r).any (fun p => !(tcols.contains p.1)) = false :=
      fun r hr => hok r (List.mem_cons_of_mem row hr)
    have hstep : processRows headers dict tcols Option.none (row :: rest) i acc ents =
        processRows headers dict tcols Option.none rest (i + 1)
          (acc ++ [cleanRowData headers dict row])
          (upsertEntity ents (cleanRowData headers dict row)) := by
      simp only [processRows]
      rw [if_neg (by simp)]
      rw [h1]
      simp
    rw [hstep, ih h2]
    simp [List.append_assoc]

/-- C1 (amended): re-importing a workbook into an existing
(entity kind, year) partition whose columns cover the workbook's
normalized headers does not drop anything: the import succeeds and leaves
the partition holding its previous rows followed by the N freshly cleaned
rows, appends N more catalog entries next to the old ones, and only adds
(never rewrites) master-entity records — append semantics, not
replace. -/
theorem reimport_appends (sheets : List (String × Sheet)) (year : Int) (db : DBState)
    (gen : Sheet) (tbl : PTable)
    (hs : sheets.isEmpty = false)
    (hg : lookupA sheets "General" = some gen)
    (hr : gen.rows.isEmpty = false)
    (ht : lookupA db.tables (schoolsTableName year) = some tbl)
    (hcols : ∀ hd ∈ gen.headers,
      (tbl.cols.map Prod.fst).contains (normalize_column_name hd) = true) :
    excelImport sheets year false Option.none db =
      Except.ok
        { tables := db.tables.map (fun t =>
            if t.1 == schoolsTableName year then
              (t.1, { t.2 with rows := t.2.rows ++ cleanedRowsOf gen })
            else t)
          schema_metadata := db.schema_metadata ++ metaRowsOf gen year
          entities := entitiesUpsertOf gen db.entities } := by
  have hcreate : create_year_table year "schools" (schemaListOf gen) db = db := by
    rw [create_year_table]
    simp only [schoolsTableName] at ht
    simp [ht]
  have htcols : tableCols db (schoolsTableName year) = tbl.cols.map Prod.fst := by
    rw [tableCols, ht]
  have hok : ∀ row ∈ gen.rows,
      (cleanRowData gen.headers (schemaDictOf gen) row).any
        (fun p => !((tbl.cols.map Prod.fst).contains p.1)) = false :=
    fun row _ => cleanRowData_any_false gen.headers (schemaDictOf gen) row
      (tbl.cols.map Prod.fst) hcols
  rw [excelImport]
  simp only [hs, Bool.false_eq_true, if_false, hg, hr]
  simp only [hcreate]
  rw [htcols]
  rw [processRows_ok gen.headers (schemaDictOf gen) (tbl.cols.map Prod.fst) gen.rows hok 0 []
    db.entities]
  simp [commitImport, cleanedRowsOf, entitiesUpsertOf]

/-- Witness for C1's amended statement: re-importing the example workbook
over the populated database appends. -/
theorem reimport_appends_witness :
    excelImport [("General", genSheet3)] 2025 false Option.none dbAfter1 =
      Except.ok
        { tables := dbAfter1.tables.map (fun t =>
            if t.1 == schoolsTableName 2025 then
              (t.1, { t.2 with rows := t.2.rows ++ cleanedRowsOf genSheet3 })
            else t)
          schema_metadata := dbAfter1.schema_metadata ++ metaRowsOf genSheet3 2025
          entities := entitiesUpsertOf genSheet3 dbAfter1.entities } :=
  reimport_appends [("General", genSheet3)] 2025 dbAfter1 genSheet3 tblAfter1
    (by decide) (by decide) (by decide) (by decide) (by decide)

/-- C4 (amended): a successful import appends its Schema Catalog entries
to the catalog, and every appended entry's `is_suppressed_indicator` is
false — regardless of whether any raw sample contained the suppression
marker, because the import never assigns the flag. -/
theorem suppression_flag_always_false (sheets : List (String × Sheet)) (year : Int)
    (ddlFail : Bool) (failAt : Option Nat) (db db' : DBState)
    (h : excelImport sheets year ddlFail failAt db = Except.ok db') :
    ∃ new, db'.schema_metadata = db.schema_metadata ++ new ∧
      ∀ m ∈ new, m.is_suppressed_indicator = false := by
  obtain ⟨gen, r, hg, hr, hd, hp, hdb⟩ :=
    excelImportOk_inv sheets year ddlFail failAt db db' h
  refine ⟨metaRowsOf gen year, ?_, ?_⟩
  · rw [hdb]
    simp [commitImport, create_year_table_schema_metadata]
  · intro m hm
    rw [metaRowsOf, List.mem_map] at hm
    obtain ⟨p, _, hEq⟩ := hm
    rw [← hEq]

/-- Witness for C4's amended statement at the example import. -/
theorem suppression_flag_always_false_witness :
    ∃ new, dbAfter1.schema_metadata = dbEmpty.schema_metadata ++ new ∧
      ∀ m ∈ new, m.is_suppressed_indicator = false :=
  suppression_flag_always_false [("General", genSheet3)] 2025 false Option.none
    dbEmpty dbAfter1 (by rfl)

theorem countRc_append (es : List EntityRec) (e : EntityRec) (rc : Value) :
    countRc (es ++ [e]) rc = countRc es rc + (if e.rcdts = rc then 1 else 0) := by
  by_cases h : e.rcdts = rc <;>
    simp [countRc, List.filter_append, List.filter, h]

theorem any_false_iff_countRc_zero (es : List EntityRec) (rc : Value) :
    es.any (fun e => decide (e.rcdts = rc)) = false ↔ countRc es rc = 0 := by
  simp [countRc, List.any_eq_false, List.length_eq_zero, List.filter_eq_nil_iff]

theorem upsertEntity_shape (es : List EntityRec) (rd : List (String × Value)) :
    upsertEntity es rd = es ∨
    ∃ e, upsertEntity es rd = es ++ [e] ∧ countRc es e.rcdts = 0 := by
  cases hrc : lookupA rd "rcdts" with
  | none => exact Or.inl (by simp [upsertEntity, hrc])
  | some rc =>
    simp only [upsertEntity, hrc]
    by_cases ht : pyTruthy rc = true
    · rw [if_pos ht]
      by_cases ha : es.any (fun e => decide (e.rcdts = rc)) = true
      · rw [if_pos ha]
        exact Or.inl rfl
      · rw [if_neg ha]
        right
        refine ⟨_, rfl, ?_⟩
        exact (any_false_iff_countRc_zero es rc).mp (by simpa using ha)
    · rw [if_neg ht]
      exact Or.inl rfl

theorem upsertEntity_count_le (es : List EntityRec) (rd : List (String × Value))
    (rc : Value) (h : countRc es rc ≤ 1) : countRc (upsertEntity es rd) rc ≤ 1 := by
  rcases upsertEntity_shape es rd with h1 | ⟨e, h1, h2⟩
  · rw [h1]
    exact h
  · rw [h1, countRc_append]
    by_cases hrc : e.rcdts = rc
    · rw [hrc] at h2
      simp [hrc, h2]
    · simpa [hrc] using h

theorem upsertEntity_count_pos (es : List EntityRec) (rd : List (String × Value))
    (rc : Value) (h : 1 ≤ countRc es rc) :
    countRc (upsertEntity es rd) rc = countRc es rc := by
  rcases upsertEntity_shape es rd with h1 | ⟨e, h1, h2⟩
  · rw [h1]
  · rw [h1, countRc_append]
    by_cases hrc : e.rcdts = rc
    · rw [hrc] at h2
      omega
    · simp [hrc]

theorem upsertEntity_count_other (es : List EntityRec) (rd : List (String × Value))
    (rc : Value) (h : lookupA rd "rcdts" ≠ some rc) :
    countRc (upsertEntity es rd) rc = countRc es rc := by
  cases hrc : lookupA rd "rcdts" with
  | none => simp [upsertEntity, hrc]
  | some rc2 =>
    have hne : rc2 ≠ rc := by
      intro hEq
      exact h (by rw [hrc, hEq])
    simp only [upsertEntity, hrc]
    by_cases ht : pyTruthy rc2 = true
    · rw [if_pos ht]
      by_cases ha : es.any (fun e => decide (e.rcdts = rc2)) = true
      · rw [if_pos ha]
      · rw [if_neg ha, countRc_append]
        simp [hne]
    · rw [if_neg ht]

theorem upsertEntity_carried (es : List EntityRec) (rd : List (String × Value))
    (rc : Value) (hlook : lookupA rd "rcdts" = some rc) (ht : pyTruthy rc = true)
    (h0 : countRc es rc = 0) : countRc (upsertEntity es rd) rc = 1 := by
  simp only [upsertEntity, hlook]
  rw [if_pos ht]
  have ha : es.any (fun e => decide (e.rcdts = rc)) = false :=
    (any_false_iff_countRc_zero es rc).mpr h0
  rw [ha]
  simp [countRc_append, h0]

theorem entsFold_append {β : Type} (f : β → List (String × Value)) (rows : List β) :
    ∀ es, ∃ new, rows.foldl (fun es row => upsertEntity es (f row)) es = es ++ new := by
  induction rows with
  | nil =>
    intro es
    exact ⟨[], by simp⟩
  | cons row rest ih =>
    intro es
    obtain ⟨new1, h1⟩ := ih (upsertEntity es (f row))
    rcases upsertEntity_shape es (f row) with h2 | ⟨e, h2, _⟩
    · rw [List.foldl_cons, h1, h2]
      exact ⟨new1, rfl⟩
    · rw [List.foldl_cons, h1, h2]
      exact ⟨[e] ++ new1, by simp⟩

theorem entsFold_le {β : Type} (f : β → List (String × Value)) (rows : List β) :
    ∀ es, (∀ rc, countRc es rc ≤ 1) →
      ∀ rc, countRc (rows.foldl (fun es row => upsertEntity es (f row)) es) rc ≤ 1 := by
  induction rows with
  | nil => exact fun es h => h
  | cons row rest ih =>
    intro es h rc
    exact ih (upsertEntity es (f row))
      (fun rc2 => upsertEntity_count_le es (f row) rc2 (h rc2)) rc

theorem entsFold_pos {β : Type} (f : β → List (String × Value)) (rows : List β)
    (rc : Value) :
    ∀ es, 1 ≤ countRc es rc →
      countRc (rows.foldl (fun es row => upsertEntity es (f row)) es) rc = countRc es rc := by
  induction rows with
  | nil => exact fun es _ => rfl
  | cons row rest ih =>
    intro es h
    rw [List.foldl_cons]
    have h1 := upsertEntity_count_pos es (f row) rc h
    rw [ih (upsertEntity es (f row)) (by omega), h1]

theorem entsFold_carried {β : Type} (f : β → List (String × Value)) (rows : List β)
    (rc : Value) (ht : pyTruthy rc = true) :
    ∀ es, countRc es rc = 0 → (∃ row ∈ rows, lookupA (f row) "rcdts" = some rc) →
      countRc (rows.foldl (fun es row => upsertEntity es (f row)) es) rc = 1 := by
  induction rows with
  | nil =>
    rintro es h0 ⟨row, hm, _⟩
    cases hm
  | cons row rest ih =>
    intro es h0 hex
    rw [List.foldl_cons]
    by_cases hlook : lookupA (f row) "rcdts" = some rc
    · have h1 := upsertEntity_carried es (f row) rc hlook ht h0
      rw [entsFold_pos f rest rc (upsertEntity es (f row)) (by omega), h1]
    · have hcount := upsertEntity_count_other es (f row) rc hlook
      apply ih (upsertEntity es (f row)) (hcount.trans h0)
      rcases hex with ⟨row2, hm, hl⟩
      rcases List.mem_cons.mp hm with hEq | hm2
      · exact absurd (hEq ▸ hl) hlook
      · exact ⟨row2, hm2, hl⟩

theorem processRows_parts (headers : List String) (dict : List (String × ColInfo))
    (tcols : List String) (failAt : Option Nat) (rows : List (List (String × Value))) :
    ∀ (i : Nat) (acc : List (List (String × Value))) (ents : List EntityRec)
      (r : List (List (String × Value)) × List EntityRec),
      processRows headers dict tcols failAt rows i acc ents = Except.ok r →
      r.1 = acc ++ rows.map (cleanRowData headers dict) ∧
      r.2 = rows.foldl (fun es row => upsertEntity es (cleanRowData headers dict row)) ents := by
  induction rows with
  | nil =>
    intro i acc ents r h
    simp only [processRows] at h
    cases h
    simp
  | cons row rest ih =>
    intro i acc ents r h
    simp only [processRows] at h
    split at h
    · cases h
    · split at h
      · cases h
      · have h2 := ih (i + 1) (acc ++ [cleanRowData headers dict row])
          (upsertEntity ents (cleanRowData headers dict row)) r h
        simpa [List.append_assoc] using h2

theorem excelImportOk_entities (sheets : List (String × Sheet)) (year : Int)
    (ddlFail : Bool) (failAt : Option Nat) (db db' : DBState) (gen : Sheet)
    (hg : lookupA sheets "General" = some gen)
    (h : excelImport sheets year ddlFail failAt db = Except.ok db') :
    db'.entities = gen.rows.foldl
      (fun es row => upsertEntity es (cleanRowData gen.headers (schemaDictOf gen) row))
      db.entities := by
  obtain ⟨gen2, r, hg2, _, _, hp, hdb⟩ := excelImportOk_inv sheets year ddlFail failAt db db' h
  rw [hg] at hg2
  cases hg2
  have hparts := processRows_parts gen.headers (schemaDictOf gen) _ failAt gen.rows 0 [] _ r hp
  rw [hdb]
  simp only [commitImport]
  rw [hparts.2, create_year_table_entities]

/-- C8: the Master Entity Record table is only ever appended to by an
ingestion job (existing records are never rewritten or removed —
first-seen wins); uniqueness by external id holds; a row whose rcdts already
has a record adds nothing; and a truthy rcdts carried by some cleaned row
of the sheet and absent beforehand ends up with exactly one record. -/
theorem entities_first_seen_unique (sheets : List (String × Sheet)) (year : Int)
    (ddlFail : Bool) (failAt : Option Nat) (db db' : DBState) (gen : Sheet)
    (hg : lookupA sheets "General" = some gen)
    (h : excelImport sheets year ddlFail failAt db = Except.ok db') :
    (∃ new, db'.entities = db.entities ++ new) ∧
    ((∀ rc, countRc db.entities rc ≤ 1) → ∀ rc, countRc db'.entities rc ≤ 1) ∧
    (∀ rc, 1 ≤ countRc db.entities rc →
      countRc db'.entities rc = countRc db.entities rc) ∧
    (∀ rc, pyTruthy rc = true → countRc db.entities rc = 0 →
      (∃ row ∈ gen.rows,
        lookupA (cleanRowData gen.headers (schemaDictOf gen) row) "rcdts" = some rc) →
      countRc db'.entities rc = 1) := by
  have hents := excelImportOk_entities sheets year ddlFail failAt db db' gen hg h
  rw [hents]
  refine ⟨entsFold_append _ gen.rows db.entities,
    fun hu => entsFold_le _ gen.rows db.entities hu,
    fun rc h1 => entsFold_pos _ gen.rows rc db.entities h1,
    fun rc ht h0 hex => entsFold_carried _ gen.rows rc ht db.entities h0 hex⟩

/-- Witness for C8 at the example import into an empty database. -/
theorem entities_first_seen_unique_witness :
    (∃ new, dbAfter1.entities = dbEmpty.entities ++ new) ∧
    ((∀ rc, countRc dbEmpty.entities rc ≤ 1) → ∀ rc, countRc dbAfter1.entities rc ≤ 1) ∧
    (∀ rc, 1 ≤ countRc dbEmpty.entities rc →
      countRc dbAfter1.entities rc = countRc dbEmpty.entities rc) ∧
    (∀ rc, pyTruthy rc = true → countRc dbEmpty.entities rc = 0 →
      (∃ row ∈ genSheet3.rows,
        lookupA (cleanRowData genSheet3.headers (schemaDictOf genSheet3) row) "rcdts" = some rc) →
      countRc dbAfter1.entities rc = 1) :=
  entities_first_seen_unique [("General", genSheet3)] 2025 false Option.none
    dbEmpty dbAfter1 genSheet3 (by rfl) (by rfl)

/-- C2 (amended): once the partition exists, the query endpoint never
rejects a request — the SQL it builds is a function of the request alone
(`buildQuerySQL` consults neither the partition's reflected columns nor
anything else in the database), so requested field names and filter column
names are interpolated verbatim with no allow-list validation, while
filter values travel in the bound-parameter list. -/
theorem query_no_validation (db : DBState) (req : QueryRequest) (t : PTable)
    (h : lookupA db.tables (tableBase req.entity_type ++ "_" ++ toString req.year) = some t) :
    query db req = Except.ok (buildQuerySQL req) := by
  rw [query]
  simp only [h]

/-- Witness for C2's amended statement at the concrete bad request. -/
theorem query_no_validation_witness :
    query qDB badReq = Except.ok (buildQuerySQL badReq) :=
  query_no_validation qDB badReq
    { cols := [("id", "INTEGER"), ("city", "TEXT"), ("imported_at", "DATETIME")]
      rows := [] } (by rfl)

theorem identCh_bounds (c : Char) (h : isIdentCh c = true) :
    (97 ≤ c.toNat ∧ c.toNat ≤ 122) ∨ (48 ≤ c.toNat ∧ c.toNat ≤ 57) ∨ c = '_' := by
  rw [isIdentCh] at h
  rcases Bool.or_eq_true_iff.mp h with h1 | h1
  · rcases Bool.or_eq_true_iff.mp h1 with h2 | h2
    · exact Or.inl (by simpa [isLowerCh] using h2)
    · exact Or.inr (Or.inl (by simpa [isDigitCh] using h2))
  · exact Or.inr (Or.inr (by simpa using h1))

theorem identCh_props (c : Char) (h : isIdentCh c = true) :
    pyLowerCh c = c ∧ (c == '%') = false ∧ isSepCh c = false := by
  rcases identCh_bounds c h with hb | hb | hb
  case inr.inr =>
    subst hb
    exact ⟨by decide, by decide, by decide⟩
  all_goals
    refine ⟨?_, ?_, ?_⟩
    · rw [pyLowerCh, if_neg]
      simp only [isUpperCh, Bool.and_eq_true, decide_eq_true_eq, not_and]
      omega
    · rw [beq_eq_false_iff_ne]
      intro hEq
      have : c.toNat = 37 := by rw [hEq]; rfl
      omega
    · simp only [isSepCh, isPySpace, Bool.or_eq_false_iff, beq_eq_false_iff_ne,
        Bool.and_eq_false_iff, decide_eq_false_iff_not]
      omega

theorem noDoubleUS_tail (a : Char) (l : List Char) (h : noDoubleUS (a :: l) = true) :
    noDoubleUS l = true := by
  cases l with
  | nil => rfl
  | cons b rest =>
    rw [noDoubleUS, Bool.and_eq_true] at h
    exact h.2

theorem noDoubleUS_cons (a : Char) (l : List Char) (hl : noDoubleUS l = true)
    (hh : ∀ c, l.head? = some c → (a == '_' && c == '_') = false) :
    noDoubleUS (a :: l) = true := by
  cases l with
  | nil => rfl
  | cons b rest =>
    rw [noDoubleUS, Bool.and_eq_true]
    exact ⟨by simp [hh b rfl], hl⟩

theorem map_pyLowerCh_id (l : List Char) (h : ∀ c ∈ l, isIdentCh c = true) :
    l.map pyLowerCh = l := by
  induction l with
  | nil => rfl
  | cons c rest ih =>
    rw [List.map_cons, (identCh_props c (h c (List.mem_cons_self c rest))).1,
      ih (fun d hd => h d (List.mem_cons_of_mem c hd))]

theorem replacePct_id (l : List Char) (h : ∀ c ∈ l, isIdentCh c = true) :
    replacePct l = l := by
  induction l with
  | nil => rfl
  | cons c rest ih =>
    have hc := (identCh_props c (h c (List.mem_cons_self c rest))).2.1
    simp only [replacePct, List.map_cons, List.flatten_cons, hc, Bool.false_eq_true, if_false]
    rw [List.singleton_append]
    have := ih (fun d hd => h d (List.mem_cons_of_mem c hd))
    rw [replacePct] at this
    rw [this]

theorem collapseSep_id (l : List Char) (h : ∀ c ∈ l, isIdentCh c = true) :
    collapseSep l = l := by
  induction l with
  | nil => rfl
  | cons a rest ih =>
    have ha := (identCh_props a (h a (List.mem_cons_self a rest))).2.2
    cases rest with
    | nil => simp [collapseSep, ha]
    | cons b rest2 =>
      rw [collapseSep, if_neg (by simp [ha])]
      rw [ih (fun d hd => h d (List.mem_cons_of_mem a hd))]

theorem collapseUS_id (l : List Char) (h : noDoubleUS l = true) :
    collapseUS l = l := by
  induction l with
  | nil => rfl
  | cons a rest ih =>
    cases rest with
    | nil => rfl
    | cons b rest2 =>
      rw [noDoubleUS, Bool.and_eq_true] at h
      have hx : (a == '_' && b == '_') = false := by
        have := h.1
        simp only [Bool.not_eq_true'] at this
        exact this
      simp only [collapseUS, hx, Bool.false_eq_true, if_false]
      rw [ih h.2]

theorem dropWhile_id (p : Char → Bool) (l : List Char)
    (h : ∀ c, l.head? = some c → p c = false) : l.dropWhile p = l := by
  cases l with
  | nil => rfl
  | cons c rest => simp [List.dropWhile_cons, h c rfl]

theorem dropTrailing_id (p : Char → Bool) (l : List Char)
    (h : ∀ c, l.getLast? = some c → p c = false) : dropTrailing p l = l := by
  induction l with
  | nil => rfl
  | cons c rest ih =>
    cases rest with
    | nil =>
      simp only [dropTrailing]
      rw [if_neg (by simp [h c rfl])]
    | cons d rest2 =>
      have hrest := ih (fun e he => h e (by rw [List.getLast?_cons_cons]; exact he))
      rw [dropTrailing, hrest]

theorem mem_dropTrailing (p : Char → Bool) (l : List Char) (c : Char)
    (hc : c ∈ dropTrailing p l) : c ∈ l := by
  induction l with
  | nil => simp [dropTrailing] at hc
  | cons a rest ih =>
    rw [dropTrailing] at hc
    cases hd : dropTrailing p rest with
    | nil =>
      rw [hd] at hc
      by_cases hp : p a
      · rw [if_pos hp] at hc
        cases hc
      · rw [if_neg hp] at hc
        rcases List.mem_singleton.mp hc with h
        exact h ▸ List.mem_cons_self a rest
    | cons e r2 =>
      rw [hd] at hc
      rcases List.mem_cons.mp hc with h | h
      · exact h ▸ List.mem_cons_self a rest
      · exact List.mem_cons_of_mem a (ih (by rw [hd]; exact h))

theorem collapseUS_head (rest : List Char) :
    ∀ b, (collapseUS (b :: rest)).head? = some b := by
  induction rest with
  | nil => intro b; rfl
  | cons c r ih =>
    intro b
    rw [collapseUS]
    by_cases h : (b == '_' && c == '_') = true
    · rw [if_pos h]
      have hb : b = '_' := by
        have := (Bool.and_eq_true _ _).mp h
        simpa using this.1
      have hc : c = '_' := by
        have := (Bool.and_eq_true _ _).mp h
        simpa using this.2
      rw [ih c, hb, hc]
    · rw [if_neg h]
      rfl

theorem mem_collapseUS (l : List Char) (c : Char) (hc : c ∈ collapseUS l) : c ∈ l := by
  induction l with
  | nil => simp [collapseUS] at hc
  | cons a rest ih =>
    cases rest with
    | nil => simpa [collapseUS] using hc
    | cons b rest2 =>
      rw [collapseUS] at hc
      by_cases h : (a == '_' && b == '_') = true
      · rw [if_pos h] at hc
        exact List.mem_cons_of_mem a (ih hc)
      · rw [if_neg h] at hc
        rcases List.mem_cons.mp hc with h2 | h2
        · exact h2 ▸ List.mem_cons_self a (b :: rest2)
        · exact List.mem_cons_of_mem a (ih h2)

theorem collapseUS_noDouble (l : List Char) : noDoubleUS (collapseUS l) = true := by
  induction l with
  | nil => rfl
  | cons a rest ih =>
    cases rest with
    | nil => rfl
    | cons b rest2 =>
      rw [collapseUS]
      by_cases h : (a == '_' && b == '_') = true
      · rw [if_pos h]
        exact ih
      · rw [if_neg h]
        apply noDoubleUS_cons a _ ih
        intro c hcHead
        rw [collapseUS_head rest2 b] at hcHead
        cases hcHead
        simpa using h

theorem noDoubleUS_dropWhile (p : Char → Bool) (l : List Char)
    (h : noDoubleUS l = true) : noDoubleUS (l.dropWhile p) = true := by
  induction l with
  | nil => rfl
  | cons a rest ih =>
    rw [List.dropWhile_cons]
    by_cases hp : p a = true
    · rw [if_pos hp]
      exact ih (noDoubleUS_tail a rest h)
    · rw [if_neg hp]
      exact h

theorem head_dropWhile_false (p : Char → Bool) (l : List Char) (c : Char)
    (h : (l.dropWhile p).head? = some c) : p c = false := by
  have h2 := List.head?_dropWhile_not p l
  rw [h] at h2
  exact h2

theorem dropTrailing_head (p : Char → Bool) (l : List Char)
    (h : dropTrailing p l ≠ []) : (dropTrailing p l).head? = l.head? := by
  induction l with
  | nil => exact absurd rfl h
  | cons c rest ih =>
    cases hd : dropTrailing p rest with
    | nil =>
      by_cases hp : p c = true
      · exfalso
        apply h
        simp [dropTrailing, hd, hp]
      · have hstep : dropTrailing p (c :: rest) = [c] := by
          simp [dropTrailing, hd, hp]
        rw [hstep]
        rfl
    | cons e r2 =>
      have hstep : dropTrailing p (c :: rest) = c :: e :: r2 := by
        rw [dropTrailing, hd]
      rw [hstep]
      rfl

theorem noDoubleUS_dropTrailing (p : Char → Bool) (l : List Char)
    (h : noDoubleUS l = true) : noDoubleUS (dropTrailing p l) = true := by
  induction l with
  | nil => rfl
  | cons c rest ih =>
    have hrest := ih (noDoubleUS_tail c rest h)
    cases hd : dropTrailing p rest with
    | nil =>
      by_cases hp : p c = true
      · have hstep : dropTrailing p (c :: rest) = [] := by
          simp [dropTrailing, hd, hp]
        rw [hstep]
        rfl
      · have hstep : dropTrailing p (c :: rest) = [c] := by
          simp [dropTrailing, hd, hp]
        rw [hstep]
        rfl
    | cons e r2 =>
      have hstep : dropTrailing p (c :: rest) = c :: e :: r2 := by
        rw [dropTrailing, hd]
      rw [hstep]
      rw [hd] at hrest
      apply noDoubleUS_cons c (e :: r2) hrest
      intro c2 hc2
      have he : e = c2 := by
        simpa using hc2
      subst he
      have hh := dropTrailing_head p rest (by rw [hd]; simp)
      rw [hd] at hh
      cases rest with
      | nil => simp at hh
      | cons f rest2 =>
        have hef : e = f := by
          simpa using hh
        subst hef
        rw [noDoubleUS, Bool.and_eq_true] at h
        have hx := h.1
        simp only [Bool.not_eq_true'] at hx
        exact hx

theorem getLast_dropTrailing (p : Char → Bool) (l : List Char) (c : Char)
    (h : (dropTrailing p l).getLast? = some c) : p c = false := by
  induction l with
  | nil => simp [dropTrailing] at h
  | cons a rest ih =>
    cases hd : dropTrailing p rest with
    | nil =>
      by_cases hp : p a = true
      · have hstep : dropTrailing p (a :: rest) = [] := by
          simp [dropTrailing, hd, hp]
        rw [hstep] at h
        simp at h
      · have hstep : dropTrailing p (a :: rest) = [a] := by
          simp [dropTrailing, hd, hp]
        rw [hstep] at h
        have ha : a = c := by simpa using h
        rw [← ha]
        simpa using hp
    | cons e r2 =>
      have hstep : dropTrailing p (a :: rest) = a :: e :: r2 := by
        rw [dropTrailing, hd]
      rw [hstep] at h
      rw [List.getLast?_cons_cons] at h
      exact ih (by rw [hd]; exact h)

theorem normalize_normal (s : String) :
    (∀ c ∈ (normalize_column_name s).data, isIdentCh c = true) ∧
    noDoubleUS (normalize_column_name s).data = true ∧
    (∀ c, (normalize_column_name s).data.head? = some c → (c == '_') = false) ∧
    (∀ c, (normalize_column_name s).data.getLast? = some c → (c == '_') = false) := by
  have hdata : (normalize_column_name s).data =
      dropTrailing (fun c => c == '_')
        (List.dropWhile (fun c => c == '_')
          (collapseUS
            (List.filter isIdentCh
              (collapseSep (replacePct (s.data.map pyLowerCh)))))) := rfl
  rw [hdata]
  refine ⟨?_, ?_, ?_, ?_⟩
  · intro c hc
    have h1 := mem_dropTrailing _ _ c hc
    have h2 := (List.dropWhile_sublist (fun c => c == '_')).mem h1
    have h3 := mem_collapseUS _ c h2
    exact List.of_mem_filter h3
  · exact noDoubleUS_dropTrailing _ _
      (noDoubleUS_dropWhile _ _ (collapseUS_noDouble _))
  · intro c hc
    by_cases hne : dropTrailing (fun c => c == '_')
        (List.dropWhile (fun c => c == '_')
          (collapseUS
            (List.filter isIdentCh
              (collapseSep (replacePct (s.data.map pyLowerCh)))))) = []
    · rw [hne] at hc
      cases hc
    · rw [dropTrailing_head _ _ hne] at hc
      exact head_dropWhile_false _ _ c hc
  · intro c hc
    exact getLast_dropTrailing _ _ c hc

theorem normalize_id_of_normal (t : String)
    (hall : ∀ c ∈ t.data, isIdentCh c = true)
    (hnd : noDoubleUS t.data = true)
    (hhead : ∀ c, t.data.head? = some c → (c == '_') = false)
    (hlast : ∀ c, t.data.getLast? = some c → (c == '_') = false) :
    normalize_column_name t = t := by
  apply String.ext
  show stripChars (fun c => c == '_')
      (collapseUS
        (List.filter isIdentCh
          (collapseSep (replacePct (t.data.map pyLowerCh))))) = t.data
  rw [map_pyLowerCh_id t.data hall, replacePct_id t.data hall, collapseSep_id t.data hall,
    List.filter_eq_self.mpr hall, collapseUS_id t.data hnd, stripChars, dropLeading,
    dropWhile_id _ t.data hhead, dropTrailing_id _ t.data hlast]

/-- C7: `normalize_column_name` is total on strings — for every input,
including the empty string and strings of only special characters, it
returns a value all of whose characters are identifier characters
(lowercase letters, digits, underscore) — and idempotent: applying it a
second time changes nothing. -/
theorem normalize_label_total_idempotent (s : String) :
    ((normalize_column_name s).data.all isIdentCh = true) ∧
    normalize_column_name (normalize_column_name s) = normalize_column_name s := by
  obtain ⟨hall, hnd, hhead, hlast⟩ := normalize_normal s
  exact ⟨List.all_eq_true.mpr hall,
    normalize_id_of_normal (normalize_column_name s) hall hnd hhead hlast⟩

end ReportCard
